import Mathlib

/-!
Shallow embedding of the stair-tread classification pipeline implemented in
`src/app/components/StairVisualizer/ModelRenderer.ts` (and the auxiliary
`src/utils/stairAnalyzer.ts`).  JavaScript numbers are modelled as real
numbers, `Math.sqrt` as `Real.sqrt`, and JavaScript's stable `Array.sort`
with a numeric comparator as the stable `List.insertionSort`.  Division by
zero follows Lean's convention `x / 0 = 0`; the single place where the
source can divide by zero (normalising a zero edge vector) produces NaN in
JavaScript, and both NaN and the junk value `0` fail every subsequent
threshold comparison, so all Boolean outcomes coincide.
-/

namespace Stair

noncomputable section

attribute [local instance] Classical.propDecidable

/-- A 3D point (`Point` in `types.ts`): three real coordinates. -/
structure Point where
  x : ℝ
  y : ℝ
  z : ℝ

instance : Inhabited Point := ⟨⟨0, 0, 0⟩⟩

/-- A directed line segment (`Line` in `types.ts`). -/
structure Line where
  start : Point
  «end» : Point

instance : Inhabited Line := ⟨⟨default, default⟩⟩

/-- A loop is an ordered list of segments (`Loop extends Array<Line>`). -/
abbrev Loop := List Line

/-- A face holds a list of loops. -/
structure Face where
  loops : List Loop

/-- A solid holds a list of faces. -/
structure Solid where
  faces : List Face

/-- Axis-aligned bounding box of a model. -/
structure BoundingBox where
  min : Point
  max : Point

/-- `StairModel` from `types.ts`. -/
structure StairModel where
  id : String
  name : String
  boundingBox : BoundingBox
  solids : List Solid

/-- `getPointsFromLoop` (ModelRenderer.ts): the start point of each segment. -/
def getPointsFromLoop (loop : Loop) : List Point :=
  loop.map (fun line => line.start)

/-- The edge vector `line.end - line.start`, as built in `isClosedRectangle`
and `calculateLineDistance`. -/
def lineVector (line : Line) : Point :=
  ⟨line.«end».x - line.start.x, line.«end».y - line.start.y,
    line.«end».z - line.start.z⟩

/-- `Math.sqrt(v.x*v.x + v.y*v.y + v.z*v.z)`: Euclidean norm of a vector. -/
def vecLength (v : Point) : ℝ :=
  Real.sqrt (v.x * v.x + v.y * v.y + v.z * v.z)

/-- Component-wise division by the Euclidean norm, as in the anonymous
lambda producing `normalizedVectors` inside `isClosedRectangle`. -/
def normalizeVec (v : Point) : Point :=
  ⟨v.x / vecLength v, v.y / vecLength v, v.z / vecLength v⟩

/-- Dot product of two vectors (written out component-wise in the source). -/
def dotProd (a b : Point) : ℝ :=
  a.x * b.x + a.y * b.y + a.z * b.z

/-- `Math.sqrt(Math.pow(p2.x-p1.x, 2) + ...)`: distance between two points,
as computed in `calculateRectangleAspectRatio` and `extractLongSides`. -/
def distPoints (p1 p2 : Point) : ℝ :=
  Real.sqrt ((p2.x - p1.x) ^ 2 + (p2.y - p1.y) ^ 2 + (p2.z - p1.z) ^ 2)

/-- `isHorizontalLoop` (ModelRenderer.ts, lines 538-552): non-empty, 4 or 5
segments, and every endpoint z within 0.001 of the first start point's z. -/
def isHorizontalLoop (loop : Loop) : Prop :=
  loop.length ≠ 0 ∧ (loop.length = 4 ∨ loop.length = 5) ∧
    ∀ line ∈ loop,
      |line.start.z - loop.headI.start.z| < 0.001 ∧
      |line.«end».z - loop.headI.start.z| < 0.001

/-- `isHorizontalLoop` (stairAnalyzer.ts, lines 44-57): non-empty and every
endpoint z exactly equal to the first start point's z. -/
def analyzerIsHorizontalLoop (loop : Loop) : Prop :=
  loop.length ≠ 0 ∧
    ∀ line ∈ loop,
      line.start.z = loop.headI.start.z ∧ line.«end».z = loop.headI.start.z

/-- `isClosedRectangle` (ModelRenderer.ts, lines 559-613): exactly 4
segments, circuit closure within 0.001 per axis between each segment's end
and the next segment's start (wrapping), and the normalized edge vectors
satisfying the parallel/perpendicular dot-product thresholds. -/
def isClosedRectangle (loop : Loop) : Prop :=
  loop.length = 4 ∧
  (∀ i < loop.length,
    ¬(|(loop.getD i default).«end».x - (loop.getD ((i + 1) % loop.length) default).start.x| > 0.001 ∨
      |(loop.getD i default).«end».y - (loop.getD ((i + 1) % loop.length) default).start.y| > 0.001 ∨
      |(loop.getD i default).«end».z - (loop.getD ((i + 1) % loop.length) default).start.z| > 0.001)) ∧
  (let normalizedVectors := (loop.map lineVector).map normalizeVec
   |(|dotProd (normalizedVectors.getD 0 default) (normalizedVectors.getD 2 default)| - 1)| < 0.1 ∧
   |(|dotProd (normalizedVectors.getD 1 default) (normalizedVectors.getD 3 default)| - 1)| < 0.1 ∧
   |dotProd (normalizedVectors.getD 0 default) (normalizedVectors.getD 1 default)| < 0.1)

/-- `calculateRectangleCenter` (ModelRenderer.ts, lines 697-718). -/
def calculateRectangleCenter (points : List Point) : Point :=
  if points.length < 3 then ⟨0, 0, 0⟩
  else
    let sum := points.foldl
      (fun acc p => (⟨acc.x + p.x, acc.y + p.y, acc.z + p.z⟩ : Point)) ⟨0, 0, 0⟩
    ⟨sum.x / points.length, sum.y / points.length, sum.z / points.length⟩

/-- The loop-order side lengths `distances` computed in
`calculateRectangleAspectRatio` (and, with endpoints attached, in
`extractLongSides`): distance from point `i` to point `(i+1) % length`. -/
def sideLengths (points : List Point) : List ℝ :=
  (List.range points.length).map (fun i =>
    distPoints (points.getD i default) (points.getD ((i + 1) % points.length) default))

/-- Result record of `calculateRectangleAspectRatio`. -/
structure AspectInfo where
  ratio : ℝ
  shortSide : ℝ
  longSide : ℝ
  width : ℝ
  length : ℝ

/-- `calculateRectangleAspectRatio` (ModelRenderer.ts, lines 828-875):
sort the four side lengths ascending, average the two smallest and the two
largest, and return their quotient. -/
def calculateRectangleAspectRatio (points : List Point) : AspectInfo :=
  if points.length ≠ 4 then ⟨0, 0, 0, 0, 0⟩
  else
    let sorted := List.insertionSort (fun a b => a ≤ b) (sideLengths points)
    let shortSide := (sorted.getD 0 0 + sorted.getD 1 0) / 2
    let longSide := (sorted.getD 2 0 + sorted.getD 3 0) / 2
    ⟨longSide / shortSide, shortSide, longSide, shortSide, longSide⟩

/-- A segment together with its cached length, as created in
`extractLongSides`. -/
structure SLine where
  start : Point
  «end» : Point
  length : ℝ

instance : Inhabited SLine := ⟨⟨default, default, 0⟩⟩

instance : IsTotal SLine (fun a b => b.length ≤ a.length) :=
  ⟨fun a b => le_total b.length a.length⟩

instance : IsTrans SLine (fun a b => b.length ≤ a.length) :=
  ⟨fun _ _ _ hab hbc => le_trans hbc hab⟩

/-- The `lines` array built by `extractLongSides` (lines 926-940): each side
with its start point, end point and cached length. -/
def linesOf (points : List Point) : List SLine :=
  (List.range points.length).map (fun i =>
    (⟨points.getD i default, points.getD ((i + 1) % points.length) default,
      distPoints (points.getD i default)
        (points.getD ((i + 1) % points.length) default)⟩ : SLine))

/-- Result record of `extractLongSides`. -/
structure LongSideInfo where
  longSides : List Line
  aspectRatio : ℝ

/-- `extractLongSides` (ModelRenderer.ts, lines 917-955): build the four
sides with their lengths, sort by length descending (stable), return the two
longest as the long sides, and the ratio longest / shortest. -/
def extractLongSides (points : List Point) : LongSideInfo :=
  if points.length ≠ 4 then ⟨[], 0⟩
  else
    let sorted := List.insertionSort (fun a b => b.length ≤ a.length) (linesOf points)
    ⟨[(⟨(sorted.getD 0 default).start, (sorted.getD 0 default).«end»⟩ : Line),
      (⟨(sorted.getD 1 default).start, (sorted.getD 1 default).«end»⟩ : Line)],
      (sorted.getD 0 default).length / (sorted.getD 3 default).length⟩

/-- `calculateLineDistance` (ModelRenderer.ts, lines 963-1016): perpendicular
distance from line 2's start to line 1's supporting line, via projection onto
line 1's normalized direction. -/
def calculateLineDistance (line1 line2 : Line) : ℝ :=
  let dirVector := lineVector line1
  let len := vecLength dirVector
  let unitDir : Point := ⟨dirVector.x / len, dirVector.y / len, dirVector.z / len⟩
  let connectingVector : Point :=
    ⟨line2.start.x - line1.start.x, line2.start.y - line1.start.y,
      line2.start.z - line1.start.z⟩
  let d := dotProd connectingVector unitDir
  let projection : Point := ⟨d * unitDir.x, d * unitDir.y, d * unitDir.z⟩
  let perpendicular : Point :=
    ⟨connectingVector.x - projection.x, connectingVector.y - projection.y,
      connectingVector.z - projection.z⟩
  Real.sqrt (perpendicular.x * perpendicular.x +
    perpendicular.y * perpendicular.y + perpendicular.z * perpendicular.z)

/-- JavaScript's `Math.round`: round half toward positive infinity. -/
def jsRound (x : ℝ) : ℝ :=
  (⌊x + 1 / 2⌋ : ℤ)

/-- `Math.round(x * 100) / 100`: round to two decimal places. -/
def round2 (x : ℝ) : ℝ :=
  jsRound (x * 100) / 100

/-- The planar distance used by `filterUppermostRectangles`:
`Math.sqrt(Math.pow(dx, 2) + Math.pow(dy, 2))` on the x/y components. -/
def xyDistance (a b : Point) : ℝ :=
  Real.sqrt ((a.x - b.x) ^ 2 + (a.y - b.y) ^ 2)

/-- The per-rectangle record passed to `filterUppermostRectangles`. -/
structure RectRecord where
  index : ℕ
  center : Point
  points : List Point

instance : Inhabited RectRecord := ⟨⟨0, default, []⟩⟩

/-- One iteration of the grouping pass of `filterUppermostRectangles`
(ModelRenderer.ts, lines 769-796): append `rectIndex` to every existing
group whose first-seen representative's center is within `xyTolerance` in
the xy-plane, and append a fresh singleton group when no group matched. -/
def addToGroups (rectangles : List RectRecord) (xyTolerance : ℝ)
    (groups : List (List ℕ)) (rectIndex : ℕ) : List (List ℕ) :=
  let rect := rectangles.getD rectIndex default
  let updated := groups.map (fun group =>
    if xyDistance rect.center (rectangles.getD group.headI default).center < xyTolerance
    then group ++ [rectIndex] else group)
  if ∃ group ∈ groups,
      xyDistance rect.center (rectangles.getD group.headI default).center < xyTolerance
  then updated
  else updated ++ [[rectIndex]]

/-- The grouping pass of `filterUppermostRectangles`: process the rectangle
indices in input order, starting from no groups. -/
def buildGroups (rectangles : List RectRecord) (xyTolerance : ℝ) : List (List ℕ) :=
  (List.range rectangles.length).foldl (addToGroups rectangles xyTolerance) []

/-- One comparison step of the highest-z selection loop of
`filterUppermostRectangles` (lines 808-814): a strictly greater center z
replaces the current best index. -/
def zstep (rectangles : List RectRecord) (best i : ℕ) : ℕ :=
  if (rectangles.getD i default).center.z > (rectangles.getD best default).center.z
  then i else best

/-- The selection loop of `filterUppermostRectangles` (lines 804-817): start
from the first group member and replace it whenever a later member has a
strictly greater center z. -/
def highestZIndexIn (rectangles : List RectRecord) (group : List ℕ) : ℕ :=
  group.tail.foldl (zstep rectangles) group.headI

/-- `filterUppermostRectangles` (ModelRenderer.ts, lines 757-821). -/
def filterUppermostRectangles (rectangles : List RectRecord) (xyTolerance : ℝ) : List ℕ :=
  (buildGroups rectangles xyTolerance).foldl (fun acc group =>
    if group = [] then acc else acc ++ [highestZIndexIn rectangles group]) []

/-- All loops of a model in traversal order (solid, then face, then loop),
exactly as the nested `forEach` loops of `visualizeStairModel` visit them. -/
def modelLoops (m : StairModel) : List Loop :=
  m.solids.flatMap (fun solid => solid.faces.flatMap (fun face => face.loops))

/-- `totalFaceCount`: incremented once per loop, returned in `ALL_FACES`
mode (ModelRenderer.ts, line 2187). -/
def totalFaceCount (m : StairModel) : ℕ :=
  (modelLoops m).length

/-- `horizontalRectangleCount`: loops passing `isHorizontalLoop`, returned
in `FLAT_RECTANGLES` mode (lines 1897-1899, 2176-2177). -/
def horizontalRectangleCount (m : StairModel) : ℕ :=
  ((modelLoops m).filter (fun loop => decide (isHorizontalLoop loop))).length

/-- `closedRectangleCount`: loops passing both `isClosedRectangle` and
`isHorizontalLoop`, returned in `CLOSED_RECTANGLES` mode (lines 1966-1969,
2178-2179). -/
def closedRectangleCount (m : StairModel) : ℕ :=
  ((modelLoops m).filter (fun loop =>
    decide (isClosedRectangle loop ∧ isHorizontalLoop loop))).length

/-- The `allRectangles` collection pass of `visualizeStairModel` (lines
1450-1495): every closed horizontal rectangle, in traversal order, with its
running index, computed center and boundary points. -/
def allRectangles (m : StairModel) : List RectRecord :=
  (((modelLoops m).filter (fun loop =>
    decide (isClosedRectangle loop ∧ isHorizontalLoop loop))).enum).map
    (fun p => ⟨p.1, calculateRectangleCenter (getPointsFromLoop p.2),
      getPointsFromLoop p.2⟩)

/-- `filterUppermostRectangles(allRectangles)` (line 1500), with the default
tolerance 0.1. -/
def uppermostIndices (m : StairModel) : List ℕ :=
  filterUppermostRectangles (allRectangles m) 0.1

/-- `uppermostRectangles` (line 1501). -/
def uppermostRectangles (m : StairModel) : List RectRecord :=
  (uppermostIndices m).map (fun idx => (allRectangles m).getD idx default)

/-- `uppermostRectanglesCount` (line 1504), returned in
`UPPERMOST_RECTANGLES` mode. -/
def uppermostRectanglesCount (m : StairModel) : ℕ :=
  (uppermostRectangles m).length

/-- `aspectRatioRectanglesCount` in `ASPECT_RATIO_RECTANGLES` mode (lines
1735-1746): uppermost rectangles whose `calculateRectangleAspectRatio` ratio
lies in the band `[3.5, 4.0]`. -/
def aspectRatioRectanglesCount (m : StairModel) : ℕ :=
  ((uppermostRectangles m).filter (fun rect =>
    decide (3.5 ≤ (calculateRectangleAspectRatio rect.points).ratio ∧
      (calculateRectangleAspectRatio rect.points).ratio ≤ 4.0))).length

/-- `aspectRatioRects` in `LONG_SIDE_LINES` mode (lines 1507-1519):
uppermost rectangles whose `extractLongSides` aspect ratio lies in the band
`[3.5, 4.0]`. -/
def longSideAspectRects (m : StairModel) : List RectRecord :=
  (uppermostRectangles m).filter (fun rect =>
    decide (3.5 ≤ (extractLongSides rect.points).aspectRatio ∧
      (extractLongSides rect.points).aspectRatio ≤ 4.0))

/-- `stepDistances` (lines 1531-1541): for each depth-stage rectangle with
at least two extracted long sides, the rounded perpendicular distance
between the two long sides. -/
def stepDistances (m : StairModel) : List ℝ :=
  (longSideAspectRects m).foldl (fun acc rect =>
    if ((extractLongSides rect.points).longSides).length < 2 then acc
    else acc ++ [round2 (calculateLineDistance
      (((extractLongSides rect.points).longSides).getD 0 default)
      (((extractLongSides rect.points).longSides).getD 1 default))]) []

/-- The number of rectangles with a valid depth measurement. -/
def depthMeasurementCount (m : StairModel) : ℕ :=
  (stepDistances m).length

/-- `avgStepDistance` (lines 1650-1659): defined only when at least one step
distance was measured; the mean of the pushed (rounded) step distances,
itself rounded to two decimals. -/
def avgStepDistance (m : StairModel) : Option ℝ :=
  if 0 < (stepDistances m).length then
    some (round2 ((stepDistances m).foldl (fun sum dist => sum + dist) 0 /
      (stepDistances m).length))
  else none

/-! ### Specification-side definitions

These follow the wording of the specification / claims rather than the
source, for refinement comparisons against the source-translated
definitions above. -/

/-- Spec-side rectangle validity, following the claim's wording: exactly 4
segments; each consecutive pair (wrapping) connects end-to-start within
1e-3 per axis; normalized opposite edge vectors have dot product within 0.1
of +1 or of -1; normalized adjacent edges 0 and 1 have dot product within
0.1 of 0. -/
def closedRectangleSpec (loop : Loop) : Prop :=
  loop.length = 4 ∧
  (∀ i < loop.length,
    |(loop.getD i default).«end».x - (loop.getD ((i + 1) % loop.length) default).start.x| ≤ 0.001 ∧
    |(loop.getD i default).«end».y - (loop.getD ((i + 1) % loop.length) default).start.y| ≤ 0.001 ∧
    |(loop.getD i default).«end».z - (loop.getD ((i + 1) % loop.length) default).start.z| ≤ 0.001) ∧
  (let normalizedVectors := (loop.map lineVector).map normalizeVec
   (|dotProd (normalizedVectors.getD 0 default) (normalizedVectors.getD 2 default) - 1| < 0.1 ∨
    |dotProd (normalizedVectors.getD 0 default) (normalizedVectors.getD 2 default) + 1| < 0.1) ∧
   (|dotProd (normalizedVectors.getD 1 default) (normalizedVectors.getD 3 default) - 1| < 0.1 ∨
    |dotProd (normalizedVectors.getD 1 default) (normalizedVectors.getD 3 default) + 1| < 0.1) ∧
   |dotProd (normalizedVectors.getD 0 default) (normalizedVectors.getD 1 default) - 0| < 0.1)

/-- Spec-side characterisation of the averaged aspect ratio claimed in C1:
`r` is obtained from an ascending arrangement `a ≤ b ≤ c ≤ d` of the four
side lengths as the average of the two largest over the average of the two
smallest. -/
def avgPairRatioSpec (points : List Point) (r : ℝ) : Prop :=
  ∃ a b c d : ℝ, ([a, b, c, d] : List ℝ).Perm (sideLengths points) ∧
    a ≤ b ∧ b ≤ c ∧ c ≤ d ∧ r = ((c + d) / 2) / ((a + b) / 2)

/-- Spec-side characterisation of the ratio actually used at the
depth-measurement stage: the single longest side length over the single
shortest side length. -/
def maxMinRatioSpec (points : List Point) (r : ℝ) : Prop :=
  ∃ mx mn : ℝ, mx ∈ sideLengths points ∧ mn ∈ sideLengths points ∧
    (∀ s ∈ sideLengths points, s ≤ mx ∧ mn ≤ s) ∧ r = mx / mn

/-- Spec-side list of full-precision measured depths (the same traversal as
`stepDistances` but without the 2-decimal rounding), used to compare the
reported average with the claim's full-precision average. -/
def fullPrecisionDepths (m : StairModel) : List ℝ :=
  (longSideAspectRects m).foldl (fun acc rect =>
    if ((extractLongSides rect.points).longSides).length < 2 then acc
    else acc ++ [calculateLineDistance
      (((extractLongSides rect.points).longSides).getD 0 default)
      (((extractLongSides rect.points).longSides).getD 1 default)]) []

/-- Spec-side average depth as claimed in C8: computed from the
full-precision (unrounded) measured values, then rounded for display. -/
def claimAvgStepDistance (m : StairModel) : Option ℝ :=
  if 0 < (fullPrecisionDepths m).length then
    some (round2 ((fullPrecisionDepths m).foldl (fun sum dist => sum + dist) 0 /
      (fullPrecisionDepths m).length))
  else none

/-! ### Concrete example data -/

/-- Shorthand point constructor for example data. -/
def mkP (a b c : ℝ) : Point := ⟨a, b, c⟩

/-- A horizontal right trapezoid with side lengths 1.2, 4.3, 1.3, 3.8 (in
loop order).  It passes `isClosedRectangle` (the slanted edge is within the
0.1 dot-product tolerance of parallel), its averaged-pair aspect ratio is
(3.8+4.3)/(1.2+1.3) = 3.24, outside the band, while its longest/shortest
ratio is 4.3/1.2 ≈ 3.583, inside the band. -/
def c1Loop : Loop :=
  [⟨mkP 0 0 0, mkP 1.2 0 0⟩, ⟨mkP 1.2 0 0, mkP 1.2 4.3 0⟩,
   ⟨mkP 1.2 4.3 0, mkP 0 3.8 0⟩, ⟨mkP 0 3.8 0, mkP 0 0 0⟩]

/-- The boundary points of `c1Loop`. -/
def c1Points : List Point :=
  [mkP 0 0 0, mkP 1.2 0 0, mkP 1.2 4.3 0, mkP 0 3.8 0]

/-- A model whose only loop is `c1Loop`. -/
def c2Model : StairModel :=
  ⟨"c2", "c2", ⟨mkP 0 0 0, mkP 0 0 0⟩, [⟨[⟨[c1Loop]⟩]⟩]⟩

/-- The three rectangle records of the stack-disambiguation example:
centers (0,0,1), (0.05,0.02,3) and (5,5,1). -/
def c3Rects : List RectRecord :=
  [⟨0, mkP 0 0 1, []⟩, ⟨1, mkP 0.05 0.02 3, []⟩, ⟨2, mkP 5 5 1, []⟩]

/-- A 4-segment loop whose segment 2 ends at (0,1,0) while segment 3 starts
at (1,1,0): the closure gap is exactly 1 unit. -/
def c5BrokenLoop : Loop :=
  [⟨mkP 0 0 0, mkP 1 0 0⟩, ⟨mkP 1 0 0, mkP 1 1 0⟩,
   ⟨mkP 1 1 0, mkP 0 1 0⟩, ⟨mkP 1 1 0, mkP 0 0 0⟩]

/-- The unit square as a properly closed loop. -/
def unitSquareLoop : Loop :=
  [⟨mkP 0 0 0, mkP 1 0 0⟩, ⟨mkP 1 0 0, mkP 1 1 0⟩,
   ⟨mkP 1 1 0, mkP 0 1 0⟩, ⟨mkP 0 1 0, mkP 0 0 0⟩]

/-- A 3-segment loop (a triangle) all of whose endpoints lie at z = 0. -/
def triLoop : Loop :=
  [⟨mkP 0 0 0, mkP 1 0 0⟩, ⟨mkP 1 0 0, mkP 0 1 0⟩, ⟨mkP 0 1 0, mkP 0 0 0⟩]

/-- A 4-segment loop all of whose endpoints lie at z = 3. -/
def flat4Loop : Loop :=
  [⟨mkP 0 0 3, mkP 1 0 3⟩, ⟨mkP 1 0 3, mkP 1 1 3⟩,
   ⟨mkP 1 1 3, mkP 0 1 3⟩, ⟨mkP 0 1 3, mkP 0 0 3⟩]

/-- `flat4Loop` with a single endpoint lifted to z = 3.2. -/
def bumpLoop : Loop :=
  [⟨mkP 0 0 3, mkP 1 0 3⟩, ⟨mkP 1 0 3, mkP 1 1 3.2⟩,
   ⟨mkP 1 1 3.2, mkP 0 1 3⟩, ⟨mkP 0 1 3, mkP 0 0 3⟩]

/-- A 4-segment loop whose first segment has coincident endpoints. -/
def degLoop : Loop :=
  [⟨mkP 0 0 0, mkP 0 0 0⟩, ⟨mkP 0 0 0, mkP 0 1 0⟩,
   ⟨mkP 0 1 0, mkP 0 1 0⟩, ⟨mkP 0 1 0, mkP 0 0 0⟩]

/-- A 0.0555 by 0.015 axis-aligned horizontal rectangle (aspect ratio 3.7,
tread depth 0.015). -/
def c8LoopA : Loop :=
  [⟨mkP 0 0 0, mkP 0.0555 0 0⟩, ⟨mkP 0.0555 0 0, mkP 0.0555 0.015 0⟩,
   ⟨mkP 0.0555 0.015 0, mkP 0 0.015 0⟩, ⟨mkP 0 0.015 0, mkP 0 0 0⟩]

/-- A 0.095 by 0.025 axis-aligned horizontal rectangle (aspect ratio 3.8,
tread depth 0.025), displaced 10 units in x from `c8LoopA`. -/
def c8LoopB : Loop :=
  [⟨mkP 10 0 0, mkP 10.095 0 0⟩, ⟨mkP 10.095 0 0, mkP 10.095 0.025 0⟩,
   ⟨mkP 10.095 0.025 0, mkP 10 0.025 0⟩, ⟨mkP 10 0.025 0, mkP 10 0 0⟩]

/-- A model with the two rectangles `c8LoopA` and `c8LoopB`; its measured
depths are 0.015 and 0.025. -/
def c8Model : StairModel :=
  ⟨"c8", "c8", ⟨mkP 0 0 0, mkP 0 0 0⟩, [⟨[⟨[c8LoopA]⟩]⟩, ⟨[⟨[c8LoopB]⟩]⟩]⟩

/-- The boundary points of `c8LoopA`. -/
def c8PointsA : List Point :=
  [mkP 0 0 0, mkP 0.0555 0 0, mkP 0.0555 0.015 0, mkP 0 0.015 0]

/-- The boundary points of `c8LoopB`. -/
def c8PointsB : List Point :=
  [mkP 10 0 0, mkP 10.095 0 0, mkP 10.095 0.025 0, mkP 10 0.025 0]

/-- A 4-segment loop accepted by `isClosedRectangle` (every segment vector
is non-zero and the closure gaps stay below 0.001) whose derived boundary
points contain two coincident consecutive points: segment 1 starts at the
first point again, so the point-polygon side from point 0 to point 1 has
length zero. -/
def c10Loop : Loop :=
  [⟨mkP 0 0 0, mkP 0.0005 0 0⟩, ⟨mkP 0 0 0, mkP 0 1 0⟩,
   ⟨mkP 0 1 0, mkP (-0.0005) 1 0⟩, ⟨mkP 0 1 0, mkP 0 0 0⟩]

/-- A model with no solids at all. -/
def emptyModel : StairModel :=
  ⟨"empty", "empty", ⟨mkP 0 0 0, mkP 0 0 0⟩, []⟩

/-! ### Helper lemmas -/

theorem sqrtNum {a b : ℝ} (h : 0 ≤ b) (e : a = b ^ 2) : Real.sqrt a = b := by
  rw [e, Real.sqrt_sq h]

theorem s9 : Real.sqrt 9 = 3 := sqrtNum (by norm_num) (by norm_num)

theorem s25 : Real.sqrt 25 = 5 := sqrtNum (by norm_num) (by norm_num)

theorem s36 : Real.sqrt 36 = 6 := sqrtNum (by norm_num) (by norm_num)

theorem s100 : Real.sqrt 100 = 10 := sqrtNum (by norm_num) (by norm_num)

theorem s169 : Real.sqrt 169 = 13 := sqrtNum (by norm_num) (by norm_num)

theorem s361 : Real.sqrt 361 = 19 := sqrtNum (by norm_num) (by norm_num)

theorem s1600 : Real.sqrt 1600 = 40 := sqrtNum (by norm_num) (by norm_num)

theorem s1849 : Real.sqrt 1849 = 43 := sqrtNum (by norm_num) (by norm_num)

theorem s12321 : Real.sqrt 12321 = 111 := sqrtNum (by norm_num) (by norm_num)

theorem s40000 : Real.sqrt 40000 = 200 := sqrtNum (by norm_num) (by norm_num)

theorem s4000000 : Real.sqrt 4000000 = 2000 := sqrtNum (by norm_num) (by norm_num)

theorem floorEval {x : ℝ} {n : ℤ} (h1 : (n : ℝ) ≤ x) (h2 : x < n + 1) : ⌊x⌋ = n :=
  Int.floor_eq_iff.mpr ⟨h1, h2⟩

theorem headI_mem {α : Type _} [Inhabited α] {l : List α} (h : l ≠ []) :
    l.headI ∈ l := by
  cases l with
  | nil => exact absurd rfl h
  | cons a t => simp

theorem getD_map_of_lt {α β : Type _} [Inhabited α] [Inhabited β] (f : α → β)
    (l : List α) {i : ℕ} (h : i < l.length) :
    (l.map f).getD i default = f (l.getD i default) := by
  rw [List.getD_eq_getElem (l.map f) default (by simpa using h),
    List.getD_eq_getElem l default h]
  simp

theorem filter_length_mono {α : Type _} (l : List α) (p q : α → Bool)
    (h : ∀ a, p a = true → q a = true) :
    (l.filter p).length ≤ (l.filter q).length := by
  induction l with
  | nil => simp
  | cons a t ih =>
    rw [List.filter_cons, List.filter_cons]
    by_cases h1 : p a = true
    · rw [if_pos h1, if_pos (h a h1)]
      simpa using Nat.succ_le_succ ih
    · rw [if_neg h1]
      by_cases h2 : q a = true
      · rw [if_pos h2]
        simpa using Nat.le_succ_of_le ih
      · rw [if_neg h2]
        exact ih

/-! ### C6 — horizontal filter -/

theorem absDotIff (d : ℝ) : |(|d| - 1)| < 0.1 ↔ |d - 1| < 0.1 ∨ |d + 1| < 0.1 := by
  rcases le_or_lt 0 d with hd | hd
  · rw [abs_of_nonneg hd]
    constructor
    · exact fun h => Or.inl h
    · rintro (h | h)
      · exact h
      · rw [abs_lt] at h ⊢
        constructor <;> linarith [h.1, h.2]
  · rw [abs_of_neg hd]
    constructor
    · intro h
      refine Or.inr ?_
      rw [abs_lt] at h ⊢
      constructor <;> linarith [h.1, h.2]
    · rintro (h | h)
      · rw [abs_lt] at h ⊢
        constructor <;> linarith [h.1, h.2]
      · rw [abs_lt] at h ⊢
        constructor <;> linarith [h.1, h.2]

/-- C6 (amended): for every loop with 4 or 5 segments all of whose endpoint
z values equal one common value, `isHorizontalLoop` returns true; every loop
containing an endpoint whose z differs from the reference z (the first
segment's start z) by more than 0.001 is rejected; and the exact-equality
variant `analyzerIsHorizontalLoop` (stairAnalyzer.ts) accepts every
non-empty loop with a common endpoint z.  The claim as frozen omits the 4-
or 5-segment restriction, which `c6_counterexample` shows is necessary. -/
theorem c6_horizontal_filter :
    (∀ (loop : Loop) (c : ℝ), (loop.length = 4 ∨ loop.length = 5) →
      (∀ line ∈ loop, line.start.z = c ∧ line.«end».z = c) →
      isHorizontalLoop loop) ∧
    (∀ loop : Loop,
      (∃ line ∈ loop, 0.001 < |line.start.z - loop.headI.start.z| ∨
        0.001 < |line.«end».z - loop.headI.start.z|) →
      ¬ isHorizontalLoop loop) ∧
    (∀ (loop : Loop) (c : ℝ), loop ≠ [] →
      (∀ line ∈ loop, line.start.z = c ∧ line.«end».z = c) →
      analyzerIsHorizontalLoop loop) := by
  refine ⟨?_, ?_, ?_⟩
  · intro loop c hlen hc
    have hne : loop.length ≠ 0 := by rcases hlen with h | h <;> omega
    have hnil : loop ≠ [] := by
      intro hcon
      exact hne (by simp [hcon])
    have hhead := hc _ (headI_mem hnil)
    refine ⟨hne, hlen, ?_⟩
    intro line hline
    have hl := hc line hline
    rw [hl.1, hl.2, hhead.1]
    norm_num
  · rintro loop ⟨line, hline, hgt⟩ ⟨_, _, hall⟩
    have hl := hall line hline
    rcases hgt with h | h
    · linarith [hl.1]
    · linarith [hl.2]
  · intro loop c hnil hc
    have hhead := hc _ (headI_mem hnil)
    refine ⟨fun h0 => hnil (List.length_eq_zero.mp h0), ?_⟩
    intro line hline
    have hl := hc line hline
    rw [hl.1, hl.2, hhead.1]
    exact ⟨rfl, rfl⟩

/-- C6 (counterexample): a triangle all of whose endpoints lie at z = 0 —
every endpoint shares one bit-exact z value — is nevertheless rejected by
`isHorizontalLoop`, because the filter also requires 4 or 5 segments. -/
theorem c6_counterexample :
    triLoop.length = 3 ∧
    triLoop.map (fun line => (line.start.z, line.«end».z)) =
      [(0, 0), (0, 0), (0, 0)] ∧
    ¬ isHorizontalLoop triLoop := by
  refine ⟨rfl, by norm_num [triLoop, mkP], ?_⟩
  rintro ⟨-, hlen | hlen, -⟩ <;> simp [triLoop] at hlen

/-- C6 (witness): the amended theorem applied to a flat 4-segment loop at
z = 3 and to the same loop with one endpoint lifted to z = 3.2. -/
theorem c6_witness : isHorizontalLoop flat4Loop ∧ ¬ isHorizontalLoop bumpLoop :=
  ⟨c6_horizontal_filter.1 flat4Loop 3 (Or.inl rfl) (by norm_num [flat4Loop, mkP]),
   c6_horizontal_filter.2.1 bumpLoop
     ⟨⟨mkP 1 0 3, mkP 1 1 3.2⟩, List.mem_cons_of_mem _ (List.mem_cons_self _ _),
      Or.inr (by norm_num [bumpLoop, mkP, abs_of_nonneg])⟩⟩

/-! ### C5 — closed-rectangle validator -/

/-- C5: `isClosedRectangle` accepts a loop iff it has exactly 4 segments,
every consecutive pair (wrapping) connects end-to-start within 1e-3 on each
axis, the normalized opposite edge vectors (0 and 2, 1 and 3) have dot
product within 0.1 of +1 or of -1, and the normalized adjacent edges 0 and
1 have dot product within 0.1 of 0 ("within 0.1 of v" read as the source's
strict comparison `|dot - v| < 0.1`); in particular a 4-segment loop whose
segment 2 ends at distance exactly 1 from segment 3's start is rejected,
whatever its angles. -/
theorem c5_closed_rectangle :
    (∀ loop : Loop, isClosedRectangle loop ↔ closedRectangleSpec loop) ∧
    (∀ loop : Loop, loop.length = 4 →
      distPoints (loop.getD 2 default).«end» (loop.getD 3 default).start = 1 →
      ¬ isClosedRectangle loop) := by
  constructor
  · intro loop
    simp only [isClosedRectangle, closedRectangleSpec]
    constructor
    · rintro ⟨h1, h2, h3, h4, h5⟩
      refine ⟨h1, fun i hi => ?_, (absDotIff _).mp h3, (absDotIff _).mp h4, ?_⟩
      · have h := h2 i hi
        push_neg at h
        exact h
      · rw [sub_zero]
        exact h5
    · rintro ⟨h1, h2, h3, h4, h5⟩
      rw [sub_zero] at h5
      refine ⟨h1, fun i hi => ?_, (absDotIff _).mpr h3, (absDotIff _).mpr h4, h5⟩
      push_neg
      exact h2 i hi
  · rintro loop h4 hdist ⟨-, h2, -⟩
    have hc := h2 2 (by rw [h4]; norm_num)
    rw [h4, show (2 + 1) % 4 = 3 from rfl] at hc
    push_neg at hc
    obtain ⟨hx, hy, hz⟩ := hc
    have hx' := abs_le.mp hx
    have hy' := abs_le.mp hy
    have hz' := abs_le.mp hz
    have hlt : distPoints (loop.getD 2 default).«end» (loop.getD 3 default).start < 1 := by
      rw [distPoints, Real.sqrt_lt' (by norm_num)]
      nlinarith [hx'.1, hx'.2, hy'.1, hy'.2, hz'.1, hz'.2]
    rw [hdist] at hlt
    exact lt_irrefl 1 hlt

/-- C5 (witness): the broken loop (closure gap exactly 1 between segment 2's
end and segment 3's start) is rejected, and the unit square is accepted via
the spec-side characterisation. -/
theorem c5_witness :
    ¬ isClosedRectangle c5BrokenLoop ∧ isClosedRectangle unitSquareLoop := by
  constructor
  · exact c5_closed_rectangle.2 c5BrokenLoop rfl
      (by norm_num [c5BrokenLoop, mkP, distPoints, Real.sqrt_one])
  · refine (c5_closed_rectangle.1 unitSquareLoop).mpr ⟨rfl, ?_, ?_⟩
    · intro i hi
      have h4 : i < 4 := by simpa [unitSquareLoop] using hi
      interval_cases i <;> norm_num [unitSquareLoop, mkP]
    · norm_num [unitSquareLoop, mkP, lineVector, normalizeVec, vecLength, dotProd,
        Real.sqrt_one, abs_of_nonneg, abs_sub_lt_iff]

/-! ### C7 — degenerate sides fail the validator -/

theorem zero_segment_not_closed :
    ∀ loop : Loop, loop.length = 4 →
      (∃ line ∈ loop, line.start = line.«end») →
      ¬ isClosedRectangle loop := by
  rintro loop h4 ⟨line, hmem, heq⟩ ⟨-, -, hdots⟩
  obtain ⟨d02, d13, d01⟩ := hdots
  obtain ⟨i, hi, hget⟩ := List.mem_iff_getElem.mp hmem
  have hvec : lineVector line = ⟨0, 0, 0⟩ := by
    rw [lineVector, heq]
    simp
  have hnorm : normalizeVec (lineVector line) = ⟨0, 0, 0⟩ := by
    rw [hvec]
    simp [normalizeVec, vecLength]
  have hmaplen : i < (loop.map lineVector).length := by simpa using hi
  have hnv : ((loop.map lineVector).map normalizeVec).getD i default = ⟨0, 0, 0⟩ := by
    rw [getD_map_of_lt _ _ hmaplen, getD_map_of_lt _ _ hi,
      List.getD_eq_getElem loop default hi, hget, hnorm]
  have hi4 : i < 4 := by rw [h4] at hi; exact hi
  interval_cases i
  · rw [hnv] at d02
    norm_num [dotProd] at d02
  · rw [hnv] at d13
    norm_num [dotProd] at d13
  · rw [hnv] at d02
    norm_num [dotProd] at d02
  · rw [hnv] at d13
    norm_num [dotProd] at d13

/-- C7: any 4-segment loop containing a zero-length segment (coincident
start and end points) is rejected by `isClosedRectangle`: the normalized
zero vector (division by zero, modelled by Lean's `x / 0 = 0` where the
source produces NaN) makes the corresponding dot-product threshold test
false, so the validator returns false rather than accepting or propagating
a non-finite value. -/
theorem c7_degenerate_rejected :
    ∀ loop : Loop, loop.length = 4 →
      (∃ line ∈ loop, line.start = line.«end») →
      ¬ isClosedRectangle loop :=
  zero_segment_not_closed

/-- C7 (witness): the theorem applied to a loop whose first segment starts
and ends at the origin. -/
theorem c7_witness : ¬ isClosedRectangle degLoop :=
  c7_degenerate_rejected degLoop rfl
    ⟨⟨mkP 0 0 0, mkP 0 0 0⟩, List.mem_cons_self _ _, rfl⟩

/-! ### C4 — perpendicular distance -/

theorem perpComponents (sx sy sz dx dy dz wx wy wz t L : ℝ) (hL : 0 < L)
    (hL2 : L * L = dx * dx + dy * dy + dz * dz)
    (hperp : wx * dx + wy * dy + wz * dz = 0) :
    (sx + t * dx + wx - sx) -
      ((sx + t * dx + wx - sx) * (dx / L) + (sy + t * dy + wy - sy) * (dy / L) +
        (sz + t * dz + wz - sz) * (dz / L)) * (dx / L) = wx ∧
    (sy + t * dy + wy - sy) -
      ((sx + t * dx + wx - sx) * (dx / L) + (sy + t * dy + wy - sy) * (dy / L) +
        (sz + t * dz + wz - sz) * (dz / L)) * (dy / L) = wy ∧
    (sz + t * dz + wz - sz) -
      ((sx + t * dx + wx - sx) * (dx / L) + (sy + t * dy + wy - sy) * (dy / L) +
        (sz + t * dz + wz - sz) * (dz / L)) * (dz / L) = wz := by
  have hLne : L ≠ 0 := ne_of_gt hL
  refine ⟨?_, ?_, ?_⟩
  · field_simp
    linear_combination (t * dx) * hL2 - dx * hperp
  · field_simp
    linear_combination (t * dy) * hL2 - dy * hperp
  · field_simp
    linear_combination (t * dz) * hL2 - dz * hperp

/-- C4: if line 2's start point is obtained from line 1's start point by a
translation `t` along line 1's direction vector plus an offset `w`
perpendicular to that direction with norm 0.30, then
`calculateLineDistance` returns exactly 0.30 (hence within 1e-6), for every
`t` — the position along the parallel axis does not affect the result. -/
theorem c4_perpendicular_distance :
    ∀ (line1 line2 : Line) (t : ℝ) (w : Point),
      lineVector line1 ≠ (⟨0, 0, 0⟩ : Point) →
      dotProd w (lineVector line1) = 0 →
      w.x ^ 2 + w.y ^ 2 + w.z ^ 2 = 0.3 ^ 2 →
      line2.start = ⟨line1.start.x + t * (lineVector line1).x + w.x,
        line1.start.y + t * (lineVector line1).y + w.y,
        line1.start.z + t * (lineVector line1).z + w.z⟩ →
      calculateLineDistance line1 line2 = 0.3 ∧
      |calculateLineDistance line1 line2 - 0.3| ≤ 1e-6 := by
  intro line1 line2 t w hne hperp hw hstart
  have hdd : 0 < (lineVector line1).x * (lineVector line1).x +
      (lineVector line1).y * (lineVector line1).y +
      (lineVector line1).z * (lineVector line1).z := by
    have h0 : (lineVector line1).x ≠ 0 ∨ (lineVector line1).y ≠ 0 ∨
        (lineVector line1).z ≠ 0 := by
      by_contra hno
      push_neg at hno
      obtain ⟨h1, h2, h3⟩ := hno
      refine hne ?_
      calc lineVector line1
          = ⟨(lineVector line1).x, (lineVector line1).y, (lineVector line1).z⟩ := rfl
        _ = ⟨0, 0, 0⟩ := by rw [h1, h2, h3]
    rcases h0 with h | h | h
    · nlinarith [mul_self_pos.mpr h, mul_self_nonneg (lineVector line1).y,
        mul_self_nonneg (lineVector line1).z]
    · nlinarith [mul_self_pos.mpr h, mul_self_nonneg (lineVector line1).x,
        mul_self_nonneg (lineVector line1).z]
    · nlinarith [mul_self_pos.mpr h, mul_self_nonneg (lineVector line1).x,
        mul_self_nonneg (lineVector line1).y]
  have hL : 0 < vecLength (lineVector line1) := Real.sqrt_pos.mpr hdd
  have hL2 : vecLength (lineVector line1) * vecLength (lineVector line1) =
      (lineVector line1).x * (lineVector line1).x +
      (lineVector line1).y * (lineVector line1).y +
      (lineVector line1).z * (lineVector line1).z := Real.mul_self_sqrt hdd.le
  simp only [dotProd] at hperp
  have key : calculateLineDistance line1 line2 = 0.3 := by
    simp only [calculateLineDistance, dotProd]
    rw [hstart]
    dsimp only
    obtain ⟨ex, ey, ez⟩ := perpComponents line1.start.x line1.start.y line1.start.z
      (lineVector line1).x (lineVector line1).y (lineVector line1).z
      w.x w.y w.z t (vecLength (lineVector line1)) hL hL2 hperp
    rw [ex, ey, ez]
    exact sqrtNum (by norm_num) (by linear_combination hw)
  refine ⟨key, ?_⟩
  rw [key]
  norm_num

/-- C4 (witness): the theorem applied to the segment from the origin to
(2,0,0), translation 7 along it and perpendicular offset (0,0.3,0). -/
theorem c4_witness :
    calculateLineDistance ⟨mkP 0 0 0, mkP 2 0 0⟩ ⟨mkP 14 0.3 0, mkP 99 99 99⟩ = 0.3 :=
  (c4_perpendicular_distance ⟨mkP 0 0 0, mkP 2 0 0⟩ ⟨mkP 14 0.3 0, mkP 99 99 99⟩
    7 (mkP 0 0.3 0)
    (by simp [lineVector, mkP, Point.mk.injEq])
    (by norm_num [dotProd, lineVector, mkP])
    (by norm_num [mkP])
    (by norm_num [mkP, lineVector, Point.mk.injEq])).1

/-! ### C3 — stack disambiguator -/

theorem foldl_zstep_spec (rects : List RectRecord) :
    ∀ (l : List ℕ) (b : ℕ),
      (l.foldl (zstep rects) b = b ∨ l.foldl (zstep rects) b ∈ l) ∧
      (rects.getD b default).center.z ≤
        (rects.getD (l.foldl (zstep rects) b) default).center.z ∧
      ∀ j ∈ l, (rects.getD j default).center.z ≤
        (rects.getD (l.foldl (zstep rects) b) default).center.z := by
  intro l
  induction l with
  | nil =>
    intro b
    exact ⟨Or.inl rfl, le_refl _, by simp⟩
  | cons i tl ih =>
    intro b
    rw [List.foldl_cons]
    rcases le_or_lt (rects.getD i default).center.z (rects.getD b default).center.z
      with hle | hlt
    · have hz : zstep rects b i = b := by
        rw [zstep, if_neg (not_lt.mpr hle)]
      rw [hz]
      obtain ⟨m, hb, hall⟩ := ih b
      refine ⟨?_, hb, ?_⟩
      · rcases m with m | m
        · exact Or.inl m
        · exact Or.inr (List.mem_cons_of_mem _ m)
      · intro j hj
        rcases List.mem_cons.mp hj with rfl | hj
        · exact le_trans hle hb
        · exact hall j hj
    · have hz : zstep rects b i = i := by
        rw [zstep, if_pos hlt]
      rw [hz]
      obtain ⟨m, hb, hall⟩ := ih i
      refine ⟨?_, le_trans (le_of_lt hlt) hb, ?_⟩
      · rcases m with m | m
        · exact Or.inr (by rw [m]; exact List.mem_cons_self _ _)
        · exact Or.inr (List.mem_cons_of_mem _ m)
      · intro j hj
        rcases List.mem_cons.mp hj with rfl | hj
        · exact hb
        · exact hall j hj

theorem highestZIndexIn_spec (rects : List RectRecord) (g : List ℕ) (hg : g ≠ []) :
    highestZIndexIn rects g ∈ g ∧
    ∀ j ∈ g, (rects.getD j default).center.z ≤
      (rects.getD (highestZIndexIn rects g) default).center.z := by
  obtain ⟨a, tl, rfl⟩ := List.exists_cons_of_ne_nil hg
  obtain ⟨m, hb, hall⟩ := foldl_zstep_spec rects tl a
  have hh : highestZIndexIn rects (a :: tl) = tl.foldl (zstep rects) a := rfl
  constructor
  · rw [hh]
    rcases m with m | m
    · rw [m]
      exact List.mem_cons_self _ _
    · exact List.mem_cons_of_mem _ m
  · intro j hj
    rw [hh]
    rcases List.mem_cons.mp hj with rfl | hj
    · exact hb
    · exact hall j hj

theorem addToGroups_ne_nil (rects : List RectRecord) (tol : ℝ)
    (groups : List (List ℕ)) (i : ℕ) (h : ∀ g ∈ groups, g ≠ []) :
    ∀ g ∈ addToGroups rects tol groups i, g ≠ [] := by
  intro g hg
  rw [addToGroups] at hg
  split_ifs at hg with hcond
  · obtain ⟨g0, hg0, rfl⟩ := List.mem_map.mp hg
    split_ifs
    · simp
    · exact h g0 hg0
  · rcases List.mem_append.mp hg with hg' | hg'
    · obtain ⟨g0, hg0, rfl⟩ := List.mem_map.mp hg'
      split_ifs
      · simp
      · exact h g0 hg0
    · simp only [List.mem_singleton] at hg'
      subst hg'
      simp

theorem foldl_addToGroups_ne_nil (rects : List RectRecord) (tol : ℝ) :
    ∀ (l : List ℕ) (init : List (List ℕ)), (∀ g ∈ init, g ≠ []) →
      ∀ g ∈ l.foldl (addToGroups rects tol) init, g ≠ [] := by
  intro l
  induction l with
  | nil => exact fun init h => h
  | cons i tl ih =>
    intro init h
    rw [List.foldl_cons]
    exact ih _ (addToGroups_ne_nil rects tol init i h)

theorem buildGroups_ne_nil (rects : List RectRecord) (tol : ℝ) :
    ∀ g ∈ buildGroups rects tol, g ≠ [] := by
  rw [buildGroups]
  exact foldl_addToGroups_ne_nil rects tol _ [] (by simp)

theorem foldl_keep_eq_map (rects : List RectRecord) :
    ∀ (groups : List (List ℕ)) (init : List ℕ), (∀ g ∈ groups, g ≠ []) →
      groups.foldl (fun acc group => if group = [] then acc
        else acc ++ [highestZIndexIn rects group]) init =
      init ++ groups.map (highestZIndexIn rects) := by
  intro groups
  induction groups with
  | nil =>
    intro init h
    simp
  | cons g tl ih =>
    intro init h
    rw [List.foldl_cons, if_neg (h g (List.mem_cons_self _ _)), List.map_cons,
      ih _ (fun g' hg' => h g' (List.mem_cons_of_mem _ hg'))]
    simp

theorem c3_buildGroups : buildGroups c3Rects 0.1 = [[0, 1], [2]] := by
  norm_num [buildGroups, addToGroups, c3Rects, mkP, xyDistance, List.range_succ,
    Real.sqrt_lt']

/-- C3: the uppermost filter returns exactly one index per greedily built
group (in group-creation order), namely a member of the group whose center
z is maximal within the group; on the three-rectangle example with centers
(0,0,1), (0.05,0.02,3) and (5,5,1) and tolerance 0.1, it returns exactly
the z = 3 rectangle of the first footprint group and the far z = 1
rectangle. -/
theorem c3_stack_disambiguator :
    (∀ (rectangles : List RectRecord) (xyTolerance : ℝ),
      filterUppermostRectangles rectangles xyTolerance =
        (buildGroups rectangles xyTolerance).map (highestZIndexIn rectangles) ∧
      ∀ group ∈ buildGroups rectangles xyTolerance,
        highestZIndexIn rectangles group ∈ group ∧
        ∀ j ∈ group, (rectangles.getD j default).center.z ≤
          (rectangles.getD (highestZIndexIn rectangles group) default).center.z) ∧
    filterUppermostRectangles c3Rects 0.1 = [1, 2] := by
  have hmain : ∀ (rectangles : List RectRecord) (xyTolerance : ℝ),
      filterUppermostRectangles rectangles xyTolerance =
        (buildGroups rectangles xyTolerance).map (highestZIndexIn rectangles) := by
    intro rects tol
    rw [filterUppermostRectangles,
      foldl_keep_eq_map rects (buildGroups rects tol) [] (buildGroups_ne_nil rects tol)]
    simp
  refine ⟨fun rects tol => ⟨hmain rects tol, fun g hg =>
    highestZIndexIn_spec rects g (buildGroups_ne_nil rects tol g hg)⟩, ?_⟩
  rw [hmain c3Rects 0.1, c3_buildGroups]
  norm_num [highestZIndexIn, zstep, c3Rects, mkP]

/-- C3 (witness): the general part of the theorem applied to the concrete
example group [0, 1] of the example rectangle list. -/
theorem c3_witness : highestZIndexIn c3Rects [0, 1] ∈ ([0, 1] : List ℕ) :=
  ((c3_stack_disambiguator.1 c3Rects 0.1).2 [0, 1]
    (by rw [c3_buildGroups]; exact List.mem_cons_self _ _)).1

/-! ### C1 — aspect ratios -/

theorem exists_four {α : Type _} {l : List α} (h : l.length = 4) :
    ∃ a b c d, l = [a, b, c, d] := by
  rcases l with _ | ⟨a, l⟩
  · simp only [List.length_nil] at h
    omega
  rcases l with _ | ⟨b, l⟩
  · simp only [List.length_cons, List.length_nil] at h
    omega
  rcases l with _ | ⟨c, l⟩
  · simp only [List.length_cons, List.length_nil] at h
    omega
  rcases l with _ | ⟨d, l⟩
  · simp only [List.length_cons, List.length_nil] at h
    omega
  rcases l with _ | ⟨e, l⟩
  · exact ⟨a, b, c, d, rfl⟩
  · simp only [List.length_cons] at h
    omega

theorem map_length_linesOf (points : List Point) :
    (linesOf points).map SLine.length = sideLengths points := by
  simp [linesOf, sideLengths, List.map_map, Function.comp]

theorem aspect_sorted_spec (points : List Point) (h4 : points.length = 4) :
    ∃ a b c d : ℝ,
      List.insertionSort (fun a b => a ≤ b) (sideLengths points) = [a, b, c, d] ∧
      a ≤ b ∧ b ≤ c ∧ c ≤ d ∧
      (calculateRectangleAspectRatio points).ratio = ((c + d) / 2) / ((a + b) / 2) := by
  have hlen : (sideLengths points).length = 4 := by
    simp [sideLengths, h4]
  have hslen : (List.insertionSort (fun a b => a ≤ b) (sideLengths points)).length = 4 := by
    rw [List.length_insertionSort]
    exact hlen
  obtain ⟨a, b, c, d, hlist⟩ := exists_four hslen
  have hs := List.sorted_insertionSort (fun a b => a ≤ b) (sideLengths points)
  rw [hlist] at hs
  simp only [List.sorted_cons, List.mem_cons, List.mem_singleton, List.not_mem_nil,
    List.sorted_nil, and_true] at hs
  have hne : ¬ points.length ≠ 4 := not_ne_iff.mpr h4
  refine ⟨a, b, c, d, hlist, ?_, ?_, ?_, ?_⟩
  · exact hs.1 b (Or.inl rfl)
  · exact hs.2.1 c (Or.inl rfl)
  · exact hs.2.2.1 d (Or.inl rfl)
  · simp only [calculateRectangleAspectRatio, if_neg hne]
    rw [hlist]
    simp

theorem extract_sorted_spec (points : List Point) (h4 : points.length = 4) :
    ∃ a b c d : SLine,
      List.insertionSort (fun a b => b.length ≤ a.length) (linesOf points) = [a, b, c, d] ∧
      b.length ≤ a.length ∧ c.length ≤ b.length ∧ d.length ≤ c.length ∧
      (extractLongSides points).aspectRatio = a.length / d.length ∧
      (extractLongSides points).longSides = [⟨a.start, a.«end»⟩, ⟨b.start, b.«end»⟩] := by
  have hlen : (linesOf points).length = 4 := by
    simp [linesOf, h4]
  have hslen :
      (List.insertionSort (fun a b => b.length ≤ a.length) (linesOf points)).length = 4 := by
    rw [List.length_insertionSort]
    exact hlen
  obtain ⟨a, b, c, d, hlist⟩ := exists_four hslen
  have hs := List.sorted_insertionSort (fun a b => b.length ≤ a.length) (linesOf points)
  rw [hlist] at hs
  simp only [List.sorted_cons, List.mem_cons, List.mem_singleton, List.not_mem_nil,
    List.sorted_nil, and_true] at hs
  have hne : ¬ points.length ≠ 4 := not_ne_iff.mpr h4
  refine ⟨a, b, c, d, hlist, ?_, ?_, ?_, ?_, ?_⟩
  · exact hs.1 b (Or.inl rfl)
  · exact hs.2.1 c (Or.inl rfl)
  · exact hs.2.2.1 d (Or.inl rfl)
  · simp only [extractLongSides, if_neg hne]
    rw [hlist]
    simp
  · simp only [extractLongSides, if_neg hne]
    rw [hlist]
    simp

/-- C1 (amended): the ratio computed by `calculateRectangleAspectRatio` —
used by the ASPECT_RATIO stage — is the claim's averaged-pair ratio (average
of the two largest side lengths over the average of the two smallest); the
ratio computed by `extractLongSides` — the one the depth-measurement stage
compares against the same acceptance band — is instead the single longest
side length over the single shortest, with no averaging. -/
theorem c1_aspect_ratio :
    (∀ points : List Point, points.length = 4 →
      avgPairRatioSpec points (calculateRectangleAspectRatio points).ratio) ∧
    (∀ points : List Point, points.length = 4 →
      maxMinRatioSpec points (extractLongSides points).aspectRatio) := by
  constructor
  · intro points h4
    obtain ⟨a, b, c, d, hlist, hab, hbc, hcd, hratio⟩ := aspect_sorted_spec points h4
    exact ⟨a, b, c, d, by rw [← hlist]; exact List.perm_insertionSort _ _,
      hab, hbc, hcd, hratio⟩
  · intro points h4
    obtain ⟨a, b, c, d, hlist, hab, hbc, hcd, hratio, -⟩ := extract_sorted_spec points h4
    have hperm : ([a, b, c, d] : List SLine).Perm (linesOf points) := by
      rw [← hlist]
      exact List.perm_insertionSort _ _
    refine ⟨a.length, d.length, ?_, ?_, ?_, hratio⟩
    · rw [← map_length_linesOf]
      exact List.mem_map_of_mem _ (hperm.subset (by simp))
    · rw [← map_length_linesOf]
      exact List.mem_map_of_mem _ (hperm.subset (by simp))
    · intro s hs'
      rw [← map_length_linesOf] at hs'
      obtain ⟨l, hl, rfl⟩ := List.mem_map.mp hs'
      have hmem : l ∈ ([a, b, c, d] : List SLine) := hperm.symm.subset hl
      simp only [List.mem_cons, List.mem_singleton, List.not_mem_nil, or_false] at hmem
      rcases hmem with rfl | rfl | rfl | rfl
      · exact ⟨le_refl _, le_trans hcd (le_trans hbc hab)⟩
      · exact ⟨hab, le_trans hcd hbc⟩
      · exact ⟨le_trans hbc hab, hcd⟩
      · exact ⟨le_trans hcd (le_trans hbc hab), le_refl _⟩

theorem c1Loop_closed : isClosedRectangle c1Loop := by
  refine ⟨rfl, ?_, ?_⟩
  · intro i hi
    have h4 : i < 4 := by simpa [c1Loop] using hi
    interval_cases i <;> norm_num [c1Loop, mkP]
  · norm_num [c1Loop, mkP, lineVector, normalizeVec, vecLength, dotProd,
      s36, s25, s100, s169, s1849, s361, abs_of_nonneg, abs_sub_lt_iff]

theorem c1Loop_horizontal : isHorizontalLoop c1Loop := by
  refine ⟨by norm_num [c1Loop], Or.inl rfl, ?_⟩
  intro line hline
  simp only [c1Loop, List.mem_cons, List.not_mem_nil, or_false] at hline
  rcases hline with rfl | rfl | rfl | rfl <;> norm_num [c1Loop, mkP]

theorem c1_ratio_avg : (calculateRectangleAspectRatio c1Points).ratio = 81 / 25 := by
  norm_num [calculateRectangleAspectRatio, sideLengths, c1Points, mkP, distPoints,
    List.range_succ, List.insertionSort, List.orderedInsert,
    s36, s25, s100, s169, s1849, s361]

theorem c1_ratio_maxmin : (extractLongSides c1Points).aspectRatio = 43 / 12 := by
  norm_num [extractLongSides, linesOf, c1Points, mkP, distPoints,
    List.range_succ, List.insertionSort, List.orderedInsert,
    s36, s25, s100, s169, s1849, s361]

/-- C1 (counterexample): the horizontal trapezoid `c1Loop` passes the
closed-rectangle and horizontal filters; at the depth-measurement stage its
`extractLongSides` ratio 43/12 ≈ 3.583 lies inside the band [3.5, 4.0], so
the stage keeps it, although the claim's averaged-pair ratio is 81/25 =
3.24, outside the band — refuting the claim that the depth-measurement
stage keeps a rectangle iff the averaged-pair ratio lies in the band. -/
theorem c1_counterexample :
    getPointsFromLoop c1Loop = c1Points ∧
    isClosedRectangle c1Loop ∧ isHorizontalLoop c1Loop ∧
    (3.5 ≤ (extractLongSides c1Points).aspectRatio ∧
      (extractLongSides c1Points).aspectRatio ≤ 4.0) ∧
    ¬(3.5 ≤ (calculateRectangleAspectRatio c1Points).ratio ∧
      (calculateRectangleAspectRatio c1Points).ratio ≤ 4.0) := by
  refine ⟨rfl, c1Loop_closed, c1Loop_horizontal, ?_, ?_⟩
  · rw [c1_ratio_maxmin]
    norm_num
  · rw [c1_ratio_avg]
    norm_num

/-- C1 (witness): the amended theorem applied to the boundary points of the
counterexample trapezoid. -/
theorem c1_witness :
    avgPairRatioSpec c1Points (calculateRectangleAspectRatio c1Points).ratio ∧
    maxMinRatioSpec c1Points (extractLongSides c1Points).aspectRatio :=
  ⟨c1_aspect_ratio.1 c1Points rfl, c1_aspect_ratio.2 c1Points rfl⟩

/-! ### C2 — monotone narrowing -/

theorem length_foldl_le {α β : Type _} (g : List β → α → List β)
    (hg : ∀ acc a, (g acc a).length ≤ acc.length + 1) :
    ∀ (l : List α) (init : List β),
      (l.foldl g init).length ≤ init.length + l.length := by
  intro l
  induction l with
  | nil =>
    intro init
    simp
  | cons a tl ih =>
    intro init
    rw [List.foldl_cons, List.length_cons]
    calc (tl.foldl g (g init a)).length
        ≤ (g init a).length + tl.length := ih _
      _ ≤ init.length + (tl.length + 1) := by
          have := hg init a
          omega

theorem addToGroups_length (rects : List RectRecord) (tol : ℝ)
    (groups : List (List ℕ)) (i : ℕ) :
    (addToGroups rects tol groups i).length ≤ groups.length + 1 := by
  rw [addToGroups]
  split_ifs
  · simp
  · simp

theorem buildGroups_length_le (rects : List RectRecord) (tol : ℝ) :
    (buildGroups rects tol).length ≤ rects.length := by
  rw [buildGroups]
  have h := length_foldl_le (addToGroups rects tol)
    (fun acc a => addToGroups_length rects tol acc a) (List.range rects.length) []
  simpa using h

/-- C2 (amended): the candidate counts are non-increasing along
ALL ≥ HORIZONTAL ≥ CLOSED_RECTANGLE ≥ UPPERMOST ≥ ASPECT_RATIO, and the
depth-measurement count is bounded by the UPPERMOST count; the final claimed
inequality ASPECT_RATIO ≥ depth-measurement does not hold in general (see
the counterexample), because the two stages filter with different ratios. -/
theorem c2_monotone_narrowing :
    ∀ m : StairModel,
      horizontalRectangleCount m ≤ totalFaceCount m ∧
      closedRectangleCount m ≤ horizontalRectangleCount m ∧
      uppermostRectanglesCount m ≤ closedRectangleCount m ∧
      aspectRatioRectanglesCount m ≤ uppermostRectanglesCount m ∧
      depthMeasurementCount m ≤ uppermostRectanglesCount m := by
  intro m
  refine ⟨?_, ?_, ?_, ?_, ?_⟩
  · exact List.length_filter_le _ _
  · apply filter_length_mono
    intro a ha
    exact decide_eq_true (of_decide_eq_true ha).2
  · have h1 : uppermostRectanglesCount m = (uppermostIndices m).length := by
      rw [uppermostRectanglesCount, uppermostRectangles, List.length_map]
    have h2 : (allRectangles m).length = closedRectangleCount m := by
      rw [allRectangles, closedRectangleCount, List.length_map, List.enum_length]
    rw [h1, uppermostIndices, filterUppermostRectangles]
    calc ((buildGroups (allRectangles m) 0.1).foldl (fun acc group =>
            if group = [] then acc else acc ++ [highestZIndexIn (allRectangles m) group])
            []).length
        ≤ ([] : List ℕ).length + (buildGroups (allRectangles m) 0.1).length :=
          length_foldl_le _ (by
            intro acc g
            split_ifs <;> simp) _ []
      _ ≤ (allRectangles m).length := by
          have := buildGroups_length_le (allRectangles m) 0.1
          simpa using this
      _ = closedRectangleCount m := h2
  · rw [aspectRatioRectanglesCount, uppermostRectanglesCount]
    exact List.length_filter_le _ _
  · have h3 : (longSideAspectRects m).length ≤ uppermostRectanglesCount m := by
      rw [longSideAspectRects, uppermostRectanglesCount]
      exact List.length_filter_le _ _
    have h4 : depthMeasurementCount m ≤ (longSideAspectRects m).length := by
      rw [depthMeasurementCount, stepDistances]
      have h := length_foldl_le (fun acc rect =>
        if ((extractLongSides rect.points).longSides).length < 2 then acc
        else acc ++ [round2 (calculateLineDistance
          (((extractLongSides rect.points).longSides).getD 0 default)
          (((extractLongSides rect.points).longSides).getD 1 default))])
        (by
          intro acc a
          dsimp only
          split_ifs <;> simp) (longSideAspectRects m) []
      simpa using h
    exact le_trans h4 h3

theorem c2_filter : (modelLoops c2Model).filter
    (fun loop => decide (isClosedRectangle loop ∧ isHorizontalLoop loop)) = [c1Loop] := by
  have hq : decide (isClosedRectangle c1Loop ∧ isHorizontalLoop c1Loop) = true :=
    decide_eq_true ⟨c1Loop_closed, c1Loop_horizontal⟩
  have hml : modelLoops c2Model = [c1Loop] := rfl
  rw [hml]
  simp [List.filter_cons, c1Loop_closed, c1Loop_horizontal]

theorem c2_allRectangles :
    allRectangles c2Model = [⟨0, calculateRectangleCenter c1Points, c1Points⟩] := by
  rw [allRectangles, c2_filter]
  rfl

theorem c2_uppermost :
    uppermostRectangles c2Model = [⟨0, calculateRectangleCenter c1Points, c1Points⟩] := by
  rw [uppermostRectangles, uppermostIndices, c2_allRectangles]
  norm_num [filterUppermostRectangles, buildGroups, addToGroups, highestZIndexIn,
    zstep, List.range_succ]

/-- C2 (counterexample): on the one-rectangle model built from the trapezoid
`c1Loop`, the ASPECT_RATIO stage reports 0 rectangles while the
depth-measurement stage measures 1 rectangle, so the claimed inequality
ASPECT_RATIO ≥ (rectangles with valid depth measurement) fails. -/
theorem c2_counterexample :
    aspectRatioRectanglesCount c2Model = 0 ∧ depthMeasurementCount c2Model = 1 ∧
    ¬(depthMeasurementCount c2Model ≤ aspectRatioRectanglesCount c2Model) := by
  have hcond : ¬(3.5 ≤ (calculateRectangleAspectRatio c1Points).ratio ∧
      (calculateRectangleAspectRatio c1Points).ratio ≤ 4.0) := by
    rw [c1_ratio_avg]
    norm_num
  have hcond2 : 3.5 ≤ (extractLongSides c1Points).aspectRatio ∧
      (extractLongSides c1Points).aspectRatio ≤ 4.0 := by
    rw [c1_ratio_maxmin]
    norm_num
  have hlen2 : ¬(((extractLongSides c1Points).longSides).length < 2) := by
    simp only [extractLongSides, if_neg (show ¬c1Points.length ≠ 4 by norm_num [c1Points])]
    norm_num
  have ha : aspectRatioRectanglesCount c2Model = 0 := by
    rw [aspectRatioRectanglesCount, c2_uppermost]
    simp [List.filter_cons, decide_eq_true_eq, hcond]
  have hd : depthMeasurementCount c2Model = 1 := by
    rw [depthMeasurementCount, stepDistances, longSideAspectRects, c2_uppermost]
    simp [List.filter_cons, decide_eq_true_eq, hcond2, List.foldl_cons, if_neg hlen2]
  exact ⟨ha, hd, by rw [ha, hd]; norm_num⟩

/-! ### C8 — rounding policy -/

theorem foldl_round_map (l : List RectRecord) :
    ∀ acc : List ℝ,
      l.foldl (fun acc rect =>
        if ((extractLongSides rect.points).longSides).length < 2 then acc
        else acc ++ [round2 (calculateLineDistance
          (((extractLongSides rect.points).longSides).getD 0 default)
          (((extractLongSides rect.points).longSides).getD 1 default))]) (acc.map round2) =
      (l.foldl (fun acc rect =>
        if ((extractLongSides rect.points).longSides).length < 2 then acc
        else acc ++ [calculateLineDistance
          (((extractLongSides rect.points).longSides).getD 0 default)
          (((extractLongSides rect.points).longSides).getD 1 default)]) acc).map round2 := by
  induction l with
  | nil =>
    intro acc
    simp
  | cons r tl ih =>
    intro acc
    rw [List.foldl_cons, List.foldl_cons]
    by_cases h : ((extractLongSides r.points).longSides).length < 2
    · rw [if_pos h, if_pos h]
      exact ih acc
    · rw [if_neg h, if_neg h]
      have hmap : (acc.map round2) ++ [round2 (calculateLineDistance
          (((extractLongSides r.points).longSides).getD 0 default)
          (((extractLongSides r.points).longSides).getD 1 default))] =
          (acc ++ [calculateLineDistance
            (((extractLongSides r.points).longSides).getD 0 default)
            (((extractLongSides r.points).longSides).getD 1 default)]).map round2 := by
        simp
      rw [hmap]
      exact ih _

/-- C8 (amended): each measured depth is rounded to 2 decimal places as it
is recorded, and the reported step-distance list is exactly the rounded
image of the full-precision measurement list — so the reported average is
computed from the rounded values, not from the full-precision ones. -/
theorem c8_rounded_aggregation :
    ∀ m : StairModel, stepDistances m = (fullPrecisionDepths m).map round2 := by
  intro m
  rw [stepDistances, fullPrecisionDepths]
  have h := foldl_round_map (longSideAspectRects m) []
  simpa using h

theorem c8LoopA_closed : isClosedRectangle c8LoopA := by
  refine ⟨rfl, ?_, ?_⟩
  · intro i hi
    have h4 : i < 4 := by simpa [c8LoopA] using hi
    interval_cases i <;> norm_num [c8LoopA, mkP]
  · norm_num [c8LoopA, mkP, lineVector, normalizeVec, vecLength, dotProd,
      s12321, s4000000, s9, s40000, abs_of_nonneg, abs_sub_lt_iff]

theorem c8LoopB_closed : isClosedRectangle c8LoopB := by
  refine ⟨rfl, ?_, ?_⟩
  · intro i hi
    have h4 : i < 4 := by simpa [c8LoopB] using hi
    interval_cases i <;> norm_num [c8LoopB, mkP]
  · norm_num [c8LoopB, mkP, lineVector, normalizeVec, vecLength, dotProd,
      s361, s40000, s1600, Real.sqrt_one, abs_of_nonneg, abs_sub_lt_iff]

theorem c8LoopA_horizontal : isHorizontalLoop c8LoopA := by
  refine ⟨by norm_num [c8LoopA], Or.inl rfl, ?_⟩
  intro line hline
  simp only [c8LoopA, List.mem_cons, List.not_mem_nil, or_false] at hline
  rcases hline with rfl | rfl | rfl | rfl <;> norm_num [c8LoopA, mkP]

theorem c8LoopB_horizontal : isHorizontalLoop c8LoopB := by
  refine ⟨by norm_num [c8LoopB], Or.inl rfl, ?_⟩
  intro line hline
  simp only [c8LoopB, List.mem_cons, List.not_mem_nil, or_false] at hline
  rcases hline with rfl | rfl | rfl | rfl <;> norm_num [c8LoopB, mkP]

theorem c8_filter : (modelLoops c8Model).filter
    (fun loop => decide (isClosedRectangle loop ∧ isHorizontalLoop loop)) =
    [c8LoopA, c8LoopB] := by
  have hml : modelLoops c8Model = [c8LoopA, c8LoopB] := rfl
  rw [hml]
  simp [List.filter_cons, c8LoopA_closed, c8LoopA_horizontal,
    c8LoopB_closed, c8LoopB_horizontal]

theorem c8_allRectangles :
    allRectangles c8Model =
      [⟨0, calculateRectangleCenter c8PointsA, c8PointsA⟩,
       ⟨1, calculateRectangleCenter c8PointsB, c8PointsB⟩] := by
  rw [allRectangles, c8_filter]
  rfl

theorem c8_centerA : calculateRectangleCenter c8PointsA = mkP 0.02775 0.0075 0 := by
  norm_num [calculateRectangleCenter, c8PointsA, mkP]

theorem c8_centerB : calculateRectangleCenter c8PointsB = mkP 10.0475 0.0125 0 := by
  norm_num [calculateRectangleCenter, c8PointsB, mkP]

theorem c8_uppermost :
    uppermostRectangles c8Model =
      [⟨0, calculateRectangleCenter c8PointsA, c8PointsA⟩,
       ⟨1, calculateRectangleCenter c8PointsB, c8PointsB⟩] := by
  rw [uppermostRectangles, uppermostIndices, c8_allRectangles]
  norm_num [filterUppermostRectangles, buildGroups, addToGroups, highestZIndexIn,
    zstep, List.range_succ, c8_centerA, c8_centerB, xyDistance, mkP, Real.sqrt_lt']

theorem c8_ratioA : (extractLongSides c8PointsA).aspectRatio = 3.7 := by
  norm_num [extractLongSides, linesOf, c8PointsA, mkP, distPoints,
    List.range_succ, List.insertionSort, List.orderedInsert,
    s12321, s4000000, s9, s40000]

theorem c8_ratioB : (extractLongSides c8PointsB).aspectRatio = 3.8 := by
  norm_num [extractLongSides, linesOf, c8PointsB, mkP, distPoints,
    List.range_succ, List.insertionSort, List.orderedInsert,
    s361, s40000, s1600, Real.sqrt_one]

theorem c8_longA : (extractLongSides c8PointsA).longSides =
    [⟨mkP 0 0 0, mkP 0.0555 0 0⟩, ⟨mkP 0.0555 0.015 0, mkP 0 0.015 0⟩] := by
  norm_num [extractLongSides, linesOf, c8PointsA, mkP, distPoints,
    List.range_succ, List.insertionSort, List.orderedInsert,
    s12321, s4000000, s9, s40000]

theorem c8_longB : (extractLongSides c8PointsB).longSides =
    [⟨mkP 10 0 0, mkP 10.095 0 0⟩, ⟨mkP 10.095 0.025 0, mkP 10 0.025 0⟩] := by
  norm_num [extractLongSides, linesOf, c8PointsB, mkP, distPoints,
    List.range_succ, List.insertionSort, List.orderedInsert,
    s361, s40000, s1600, Real.sqrt_one]

theorem c8_distA :
    calculateLineDistance (⟨mkP 0 0 0, mkP (111 / 2000) 0 0⟩ : Line)
      (⟨mkP (111 / 2000) (3 / 200) 0, mkP 0 (3 / 200) 0⟩ : Line) = 3 / 200 := by
  norm_num [calculateLineDistance, lineVector, vecLength, dotProd, mkP,
    s12321, s4000000, s9, s40000]

theorem c8_distB :
    calculateLineDistance (⟨mkP 10 0 0, mkP (2019 / 200) 0 0⟩ : Line)
      (⟨mkP (2019 / 200) (1 / 40) 0, mkP 10 (1 / 40) 0⟩ : Line) = 1 / 40 := by
  norm_num [calculateLineDistance, lineVector, vecLength, dotProd, mkP,
    s361, s40000, s1600, Real.sqrt_one]

theorem c8_round1 : round2 (3 / 200) = 1 / 50 := by
  rw [round2, jsRound, show ⌊(3 / 200 : ℝ) * 100 + 1 / 2⌋ = 2 from
    floorEval (by norm_num) (by norm_num)]
  norm_num

theorem c8_round2 : round2 (1 / 40) = 3 / 100 := by
  rw [round2, jsRound, show ⌊(1 / 40 : ℝ) * 100 + 1 / 2⌋ = 3 from
    floorEval (by norm_num) (by norm_num)]
  norm_num

theorem c8_steps : stepDistances c8Model = [0.02, 0.03] := by
  have hbandA : 3.5 ≤ (extractLongSides c8PointsA).aspectRatio ∧
      (extractLongSides c8PointsA).aspectRatio ≤ 4.0 := by
    rw [c8_ratioA]
    norm_num
  have hbandB : 3.5 ≤ (extractLongSides c8PointsB).aspectRatio ∧
      (extractLongSides c8PointsB).aspectRatio ≤ 4.0 := by
    rw [c8_ratioB]
    norm_num
  rw [stepDistances, longSideAspectRects, c8_uppermost]
  simp only [List.filter_cons, List.filter_nil, decide_eq_true_eq]
  rw [if_pos hbandA, if_pos hbandB]
  simp only [List.foldl_cons, List.foldl_nil, c8_longA, c8_longB]
  norm_num [c8_distA, c8_distB, c8_round1, c8_round2]

theorem c8_full : fullPrecisionDepths c8Model = [0.015, 0.025] := by
  have hbandA : 3.5 ≤ (extractLongSides c8PointsA).aspectRatio ∧
      (extractLongSides c8PointsA).aspectRatio ≤ 4.0 := by
    rw [c8_ratioA]
    norm_num
  have hbandB : 3.5 ≤ (extractLongSides c8PointsB).aspectRatio ∧
      (extractLongSides c8PointsB).aspectRatio ≤ 4.0 := by
    rw [c8_ratioB]
    norm_num
  rw [fullPrecisionDepths, longSideAspectRects, c8_uppermost]
  simp only [List.filter_cons, List.filter_nil, decide_eq_true_eq]
  rw [if_pos hbandA, if_pos hbandB]
  simp only [List.foldl_cons, List.foldl_nil, c8_longA, c8_longB]
  norm_num [c8_distA, c8_distB]

/-- C8 (counterexample): on the two-rectangle model `c8Model` with
full-precision depths 0.015 and 0.025, the reported average (computed from
the recorded rounded depths 0.02 and 0.03) is 0.03, while an average
computed from the full-precision values as the claim states would report
0.02 — so the reported average is not computed from the unrounded values. -/
theorem c8_counterexample :
    avgStepDistance c8Model = some 0.03 ∧
    claimAvgStepDistance c8Model = some 0.02 ∧
    avgStepDistance c8Model ≠ claimAvgStepDistance c8Model := by
  have ha : avgStepDistance c8Model = some 0.03 := by
    rw [avgStepDistance, c8_steps]
    rw [if_pos (by norm_num)]
    norm_num
    rw [round2, jsRound, show ⌊(1 / 40 : ℝ) * 100 + 1 / 2⌋ = 3 from
      floorEval (by norm_num) (by norm_num)]
    norm_num
  have hb : claimAvgStepDistance c8Model = some 0.02 := by
    rw [claimAvgStepDistance, c8_full]
    rw [if_pos (by norm_num)]
    norm_num
    rw [round2, jsRound, show ⌊(1 / 50 : ℝ) * 100 + 1 / 2⌋ = 2 from
      floorEval (by norm_num) (by norm_num)]
    norm_num
  refine ⟨ha, hb, ?_⟩
  rw [ha, hb]
  intro h
  have := Option.some.inj h
  norm_num at this

/-! ### C9 — empty qualifying set -/

/-- C9: when no rectangle survives to the depth-measurement stage, the
pipeline reports an empty depth list and a zero count, and the average is
absent (`none`) rather than a NaN — the mean is only computed behind the
`length > 0` guard, so no division by zero occurs. -/
theorem c9_empty_guard :
    ∀ m : StairModel, longSideAspectRects m = [] →
      stepDistances m = [] ∧ depthMeasurementCount m = 0 ∧
      avgStepDistance m = none := by
  intro m h
  have hs : stepDistances m = [] := by
    rw [stepDistances, h]
    rfl
  refine ⟨hs, by rw [depthMeasurementCount, hs]; rfl, ?_⟩
  rw [avgStepDistance, if_neg]
  rw [hs]
  norm_num

/-- C9 (witness): the theorem applied to a model with no solids. -/
theorem c9_witness :
    stepDistances emptyModel = [] ∧ depthMeasurementCount emptyModel = 0 ∧
    avgStepDistance emptyModel = none :=
  c9_empty_guard emptyModel rfl

/-! ### C10 — positive side lengths and division safety -/

theorem c10Loop_closed : isClosedRectangle c10Loop := by
  refine ⟨rfl, ?_, ?_⟩
  · intro i hi
    have h4 : i < 4 := by simpa [c10Loop] using hi
    interval_cases i <;>
      norm_num [c10Loop, mkP, abs_of_nonneg, abs_of_nonpos]
  · norm_num [c10Loop, mkP, lineVector, normalizeVec, vecLength, dotProd,
      s4000000, Real.sqrt_one, abs_of_nonneg, abs_sub_lt_iff]

/-- C10 (counterexample): the loop `c10Loop` is accepted by
`isClosedRectangle` — every segment vector is non-zero and all closure gaps
are at most 0.0005 — yet the first side of its derived boundary-point
polygon, the sides used by `calculateRectangleAspectRatio` and
`extractLongSides`, has length exactly 0, refuting the claim that every
accepted loop has four strictly positive side lengths (and the shortest
sorted length, the denominator of the depth-stage ratio, is that 0). -/
theorem c10_counterexample :
    isClosedRectangle c10Loop ∧
    (sideLengths (getPointsFromLoop c10Loop)).getD 0 0 = 0 := by
  refine ⟨c10Loop_closed, ?_⟩
  norm_num [sideLengths, getPointsFromLoop, c10Loop, mkP, distPoints,
    List.range_succ]

/-- C10 (amended): every segment of a loop accepted by `isClosedRectangle`
has a strictly positive segment vector length; and at the depth stage, any
four-point rectangle whose `extractLongSides` ratio reaches the lower band
bound 3.5 has all four boundary-polygon side lengths strictly positive, so
the length normalizations applied afterwards (in particular the division by
the direction length inside `calculateLineDistance` on the extracted long
sides) never divide by zero.  The claim's stronger statement — positivity of
the boundary-polygon sides for every accepted loop — fails, see the
counterexample. -/
theorem c10_no_zero_division :
    (∀ loop : Loop, isClosedRectangle loop →
      ∀ line ∈ loop, 0 < vecLength (lineVector line)) ∧
    (∀ points : List Point, points.length = 4 →
      3.5 ≤ (extractLongSides points).aspectRatio →
      (∀ s ∈ sideLengths points, 0 < s) ∧
      ∀ l ∈ (extractLongSides points).longSides, 0 < vecLength (lineVector l)) := by
  constructor
  · intro loop hacc line hmem
    rcases lt_or_eq_of_le (Real.sqrt_nonneg ((lineVector line).x * (lineVector line).x +
      (lineVector line).y * (lineVector line).y +
      (lineVector line).z * (lineVector line).z)) with h | h
    · exact h
    · exfalso
      have hsumle : (lineVector line).x * (lineVector line).x +
          (lineVector line).y * (lineVector line).y +
          (lineVector line).z * (lineVector line).z ≤ 0 :=
        Real.sqrt_eq_zero'.mp h.symm
      have hx : (lineVector line).x = 0 := by
        nlinarith [mul_self_nonneg (lineVector line).x,
          mul_self_nonneg (lineVector line).y, mul_self_nonneg (lineVector line).z]
      have hy : (lineVector line).y = 0 := by
        nlinarith [mul_self_nonneg (lineVector line).x,
          mul_self_nonneg (lineVector line).y, mul_self_nonneg (lineVector line).z]
      have hz : (lineVector line).z = 0 := by
        nlinarith [mul_self_nonneg (lineVector line).x,
          mul_self_nonneg (lineVector line).y, mul_self_nonneg (lineVector line).z]
      have hx' : line.«end».x - line.start.x = 0 := hx
      have hy' : line.«end».y - line.start.y = 0 := hy
      have hz' : line.«end».z - line.start.z = 0 := hz
      have heq : line.start = line.«end» := by
        calc line.start = ⟨line.start.x, line.start.y, line.start.z⟩ := rfl
          _ = ⟨line.«end».x, line.«end».y, line.«end».z⟩ := by
              rw [show line.start.x = line.«end».x by linarith,
                show line.start.y = line.«end».y by linarith,
                show line.start.z = line.«end».z by linarith]
          _ = line.«end» := rfl
      exact zero_segment_not_closed loop hacc.1 ⟨line, hmem, heq⟩ hacc
  · intro points h4 hband
    obtain ⟨a, b, c, d, hlist, hab, hbc, hcd, hratio, hlong⟩ := extract_sorted_spec points h4
    have hperm : ([a, b, c, d] : List SLine).Perm (linesOf points) := by
      rw [← hlist]
      exact List.perm_insertionSort _ _
    have hnn : ∀ l ∈ linesOf points, 0 ≤ l.length ∧ l.length = distPoints l.start l.«end» := by
      intro l hl
      obtain ⟨i, -, rfl⟩ := List.mem_map.mp hl
      exact ⟨Real.sqrt_nonneg _, rfl⟩
    have hd_nn : 0 ≤ d.length := (hnn d (hperm.subset (by simp))).1
    have hd_pos : 0 < d.length := by
      rcases lt_or_eq_of_le hd_nn with h | h
      · exact h
      · exfalso
        rw [hratio, ← h] at hband
        norm_num at hband
    constructor
    · intro s hs'
      rw [← map_length_linesOf] at hs'
      obtain ⟨l, hl, rfl⟩ := List.mem_map.mp hs'
      have hmem : l ∈ ([a, b, c, d] : List SLine) := hperm.symm.subset hl
      simp only [List.mem_cons, List.mem_singleton, List.not_mem_nil, or_false] at hmem
      rcases hmem with rfl | rfl | rfl | rfl
      · linarith [hab, hbc, hcd]
      · linarith [hbc, hcd]
      · linarith [hcd]
      · exact hd_pos
    · have hveq : ∀ sl : SLine,
          vecLength (lineVector (⟨sl.start, sl.«end»⟩ : Line)) =
            distPoints sl.start sl.«end» := by
        intro sl
        rw [vecLength, lineVector, distPoints]
        dsimp only
        congr 1
        ring
      intro l hl
      rw [hlong] at hl
      simp only [List.mem_cons, List.not_mem_nil, or_false] at hl
      rcases hl with rfl | rfl
      · rw [hveq a, ← (hnn a (hperm.subset (by simp))).2]
        linarith [hab, hbc, hcd]
      · rw [hveq b, ← (hnn b (hperm.subset (by simp))).2]
        linarith [hbc, hcd]

/-- C10 (witness): the amended theorem applied to the accepted trapezoid
`c1Loop`: its first segment has positive length, and the first side length
of its boundary points is positive. -/
theorem c10_witness :
    0 < vecLength (lineVector (⟨mkP 0 0 0, mkP 1.2 0 0⟩ : Line)) ∧
    0 < (sideLengths c1Points).getD 0 0 := by
  constructor
  · exact c10_no_zero_division.1 c1Loop c1Loop_closed _ (List.mem_cons_self _ _)
  · apply (c10_no_zero_division.2 c1Points rfl (by rw [c1_ratio_maxmin]; norm_num)).1
    rw [List.getD_eq_getElem _ _ (by norm_num [sideLengths, c1Points])]
    exact List.getElem_mem _

end

end Stair
